/-
Verification of the Watchdawg dashboard core (app.py, ingeest_duckdb.py).

Shallow embedding conventions:
* Python floats are modelled as exact rationals (ℚ) where the code only does
  field arithmetic and comparisons (coordinates, hazard scores), and as reals
  (ℝ) where transcendental functions are involved (haversine_distance).
* Calendar dates and combined date-times are modelled as integers: `date` is a
  day number, `datetime` a timestamp; only their ordering and differences are
  used by the code under verification.
* pandas DataFrames become `List Record`; pandas boolean-mask filtering becomes
  `List.filter`; `sort_values` becomes the stable `List.insertionSort` (pandas
  leaves tie order unspecified; the stable order is the deterministic model).
* A Python runtime error (`UnboundLocalError`, `IndexError`, `ValueError`) is
  modelled by an `Option` result being `none`; the `try/except` block of
  `update_table` catches such errors and falls back to an empty frame.
-/
import Mathlib

/-! ## Spatial functions (app.py, `point_in_polygon`, `haversine_distance`) -/

/-- A polygon vertex as stored in the GeoJSON ring: an `(lon, lat)` pair. -/
abbrev Pt := ℚ × ℚ

/-- The edge list traversed by the Python loop
`p1 = coords[0]; for i in range(1, n+1): p2 = coords[i % n]; ...; p1 = p2`:
consecutive vertex pairs with the ring closed back to the first vertex. -/
def edgesOf (poly : List Pt) : List (Pt × Pt) :=
  match poly with
  | [] => []
  | p :: ps => List.zip (p :: ps) (ps ++ [p])

/-- One iteration of the ray-casting loop body of `point_in_polygon`.
State is `(xinters?, inside)`: `xinters?` is the Python local variable
`xinters`, `none` while it has not yet been assigned.  The result is `none`
exactly when the comparison `x <= xinters` is evaluated while `xinters` is
still unassigned (Python would raise `UnboundLocalError`). -/
def pipEdge (x y p1x p1y p2x p2y : ℚ) (s : Option ℚ × Bool) : Option (Option ℚ × Bool) :=
  if min p1y p2y < y then
    if y ≤ max p1y p2y then
      if x ≤ max p1x p2x then
        let xi := if p1y ≠ p2y then some ((y - p1y) * (p2x - p1x) / (p2y - p1y) + p1x) else s.1
        if p1x = p2x then some (xi, !s.2)
        else
          match xi with
          | none => none
          | some v => if x ≤ v then some (xi, !s.2) else some (xi, s.2)
      else some s
    else some s
  else some s

/-- Folding the loop body over the edge list, propagating a Python error. -/
def pipFold (x y : ℚ) : List (Pt × Pt) → Option ℚ × Bool → Option (Option ℚ × Bool)
  | [], s => some s
  | e :: es, s =>
    match pipEdge x y e.1.1 e.1.2 e.2.1 e.2.2 s with
    | none => none
    | some s' => pipFold x y es s'

/-- `point_in_polygon(lat, lon, polygon_coords)` from app.py.  `x, y = lon, lat`;
the loop starts with `inside = False` and `xinters` unassigned.  An empty
vertex list makes `polygon_coords[0]` raise `IndexError`, modelled as `none`. -/
def point_in_polygon (lat lon : ℚ) (poly : List Pt) : Option Bool :=
  match poly with
  | [] => none
  | _ :: _ => (pipFold lon lat (edgesOf poly) (none, false)).map (·.2)

/-- The per-edge crossing test that the loop body actually toggles on: the
horizontal ray from `(x, y)` crosses the edge iff `y` is in the half-open
vertical window, `x` does not exceed the edge's right end, and either the edge
is vertical (`p1x = p2x`, the x-intercept comparison counts as satisfied) or
`x` is at most the x-intercept of the edge at height `y`. -/
def edgeCrossing (x y : ℚ) (e : Pt × Pt) : Bool :=
  decide (min e.1.2 e.2.2 < y) && decide (y ≤ max e.1.2 e.2.2) &&
    decide (x ≤ max e.1.1 e.2.1) &&
    (decide (e.1.1 = e.2.1) ||
      decide (x ≤ (y - e.1.2) * (e.2.1 - e.1.1) / (e.2.2 - e.1.2) + e.1.1))

/-- `haversine_distance(lat1, lon1, lat2, lon2)` from app.py: great-circle
distance in meters with Earth radius 6,371,000 m; `radians x = x * π / 180`. -/
noncomputable def haversine_distance (lat1 lon1 lat2 lon2 : ℝ) : ℝ :=
  let rlon1 := lon1 * Real.pi / 180
  let rlat1 := lat1 * Real.pi / 180
  let rlon2 := lon2 * Real.pi / 180
  let rlat2 := lat2 * Real.pi / 180
  let dlon := rlon2 - rlon1
  let dlat := rlat2 - rlat1
  let a := Real.sin (dlat / 2) ^ 2 + Real.cos rlat1 * Real.cos rlat2 * Real.sin (dlon / 2) ^ 2
  let c := 2 * Real.arcsin (Real.sqrt a)
  c * 6371000

/-! ## The canonical record (one row of the cached DataFrame)

Only the fields the verified operations read are modelled; the purely
presentational columns (`offense`, `offense_sub_category`, `location`,
`precinct`, `sector`, `time`) are omitted. -/

structure Record where
  date : Int
  hour : Int
  datetime : Int
  category : String
  area : String
  hazardness : Option ℚ
  latitude : Option ℚ
  longitude : Option ℚ
  deriving DecidableEq, Repr

/-! ## Filter stages shared by `update_table` and `update_map_points` -/

/-- `if start_date and end_date: df = df[(df.date >= start) & (df.date <= end)]`. -/
def dateFilter (dr : Option (Int × Int)) (rs : List Record) : List Record :=
  match dr with
  | none => rs
  | some se => rs.filter fun r => decide (se.1 ≤ r.date) && decide (r.date ≤ se.2)

/-- `df = df[df.latitude.notna() & df.longitude.notna()]`. -/
def coordFilter (rs : List Record) : List Record :=
  rs.filter fun r => r.latitude.isSome && r.longitude.isSome

/-- The hour-range filter, identical in `update_table` and `update_map_points`:
`end_hour_filter = min(end_hour, 23)`; the filter is skipped entirely when the
range is `[0, 24]` ("all hours"). -/
def hourFilter (lo hi : Int) (rs : List Record) : List Record :=
  if lo = 0 ∧ hi = 24 then rs
  else rs.filter fun r => decide (lo ≤ r.hour) && decide (r.hour ≤ min hi 23)

/-- `df = df[df.crime_against_category.isin(selected_categories)]`, guarded by
`if selected_categories and len(selected_categories) > 0`. -/
def categoryFilter (cats : List String) (rs : List Record) : List Record :=
  if cats.isEmpty then rs else rs.filter fun r => decide (r.category ∈ cats)

/-- `if neighborhood_value: df = df[df.area.isin(neighborhoods)]`. -/
def neighborhoodFilter (nbs : List String) (rs : List Record) : List Record :=
  if nbs.isEmpty then rs else rs.filter fun r => decide (r.area ∈ nbs)

/-- `geojson_to_polygon_filter`: bounding box `(min_lat, max_lat, min_lon,
max_lon)` of the ring's vertices; `min()`/`max()` of an empty Python list
raise `ValueError`, modelled as `none`. -/
def bboxOf (coords : List Pt) : Option (ℚ × ℚ × ℚ × ℚ) :=
  match coords with
  | [] => none
  | c :: cs =>
    some (((c :: cs).map (·.2)).foldl min c.2, ((c :: cs).map (·.2)).foldl max c.2,
          ((c :: cs).map (·.1)).foldl min c.1, ((c :: cs).map (·.1)).foldl max c.1)

/-- Row-wise `df.apply(lambda row: point_in_polygon(...), axis=1)` followed by
`df[mask]`; an error raised on any row aborts the whole `apply`.  Rows reaching
this stage passed `coordFilter`, so `getD 0` reads their actual coordinates. -/
def filterPip (coords : List Pt) : List Record → Option (List Record)
  | [] => some []
  | r :: rs =>
    match point_in_polygon (r.latitude.getD 0) (r.longitude.getD 0) coords,
        filterPip coords rs with
    | some b, some rest => some (if b then r :: rest else rest)
    | _, _ => none

/-- The polygon block of `update_table`: bounding-box pre-filter, then the
exact ray-casting mask. -/
def polygonStage (coords : List Pt) (df : List Record) : Option (List Record) :=
  match bboxOf coords with
  | none => none
  | some b =>
    filterPip coords (df.filter fun r =>
      decide (b.1 ≤ r.latitude.getD 0) && decide (r.latitude.getD 0 ≤ b.2.1) &&
      decide (b.2.2.1 ≤ r.longitude.getD 0) && decide (r.longitude.getD 0 ≤ b.2.2.2))

/-- The `try:` block of `update_table` (date filter, coordinate filter,
polygon filter); the `except:` arm replaces the frame with an empty one. -/
def tableDf (cache : List Record) (poly : Option (List Pt)) (dr : Option (Int × Int)) :
    List Record :=
  let df := coordFilter (dateFilter dr cache)
  match poly with
  | none => df
  | some coords =>
    if df.isEmpty then df
    else
      match polygonStage coords df with
      | some df' => df'
      | none => []

/-- The circle radius actually used: `radius = circle_radius if circle_radius
else 805` (Python truthiness: `None` and `0` both fall back to 805 m). -/
def effectiveRadius (cr : Option ℚ) : ℚ :=
  match cr with
  | none => 805
  | some r => if r = 0 then 805 else r

/-- The row predicate of the circle filter in `update_table`:
`haversine_distance(center_lat, center_lon, row.latitude, row.longitude)
<= radius if pd.notna(row.latitude) and pd.notna(row.longitude) else False`. -/
noncomputable def circleFilterRows (clat clon radius : ℚ) (rs : List Record) : List Record :=
  rs.filter fun r =>
    match r.latitude, r.longitude with
    | some la, some lo =>
      @decide (haversine_distance (clat : ℝ) (clon : ℝ) (la : ℝ) (lo : ℝ) ≤ (radius : ℝ))
        (Classical.propDecidable _)
    | _, _ => false

/-- The circle block of `update_table`: active only when a circle center is
stored, and only on a non-empty frame. -/
noncomputable def circleStage (cc : Option (ℚ × ℚ)) (cr : Option ℚ) (rs : List Record) :
    List Record :=
  match cc with
  | none => rs
  | some c => if rs.isEmpty then rs else circleFilterRows c.1 c.2 (effectiveRadius cr) rs

/-- The circle filter of `update_map_points`.  Its lambda tests
`pd.notna(r.latitude)` only; a missing longitude makes `haversine_distance`
return NaN, whose `<=` comparison is false, so such rows are dropped too —
modelled as requiring both coordinates. -/
noncomputable def mapCircleStage (cc : Option (ℚ × ℚ)) (cr : Option ℚ) (rs : List Record) :
    List Record :=
  match cc with
  | none => rs
  | some c =>
    rs.filter fun r =>
      match r.latitude, r.longitude with
      | some la, some lo =>
        @decide (haversine_distance (c.1 : ℝ) (c.2 : ℝ) (la : ℝ) (lo : ℝ) ≤
          ((effectiveRadius cr) : ℝ)) (Classical.propDecidable _)
      | _, _ => false

/-- `df_sorted.sort_values('datetime', ascending=False)` (stable model). -/
def sortByDatetimeDesc (rs : List Record) : List Record :=
  rs.insertionSort fun a b => b.datetime ≤ a.datetime

/-- `df.sort_values('date', ascending=False)` (stable model). -/
def sortByDateDesc (rs : List Record) : List Record :=
  rs.insertionSort fun a b => b.date ≤ a.date

/-! ## The two query callbacks -/

/-- `update_table` from app.py as a pure function of its inputs and the cached
data.  The returned list stands for the table rows (the final column renaming
and string formatting preserve row identity and are omitted).  An empty
category selection returns an empty table before any data is touched. -/
noncomputable def update_table (cache : List Record) (poly : Option (List Pt))
    (hourValue : Option (Int × Int)) (categoryValue : List String)
    (neighborhoodValue : List String) (circleCoords : Option (ℚ × ℚ))
    (circleRadius : Option ℚ) (dateRange : Option (Int × Int)) : List Record :=
  let hr := hourValue.getD (0, 23)
  if categoryValue.isEmpty then []
  else
    let df := tableDf cache poly dateRange
    let df := hourFilter hr.1 hr.2 df
    let df := categoryFilter categoryValue df
    let df := neighborhoodFilter neighborhoodValue df
    let df := circleStage circleCoords circleRadius df
    (sortByDatetimeDesc df).take 500

/-- `update_map_points` from app.py as a pure function.  `none` models the
early returns that render an empty figure with a status message ("Select at
least one crime type" / "No data" / "No data matches filters"); `some pts`
models the figure drawn from the capped point list. -/
noncomputable def update_map_points (cache : List Record) (hourValue : Option (Int × Int))
    (categoryValue : List String) (neighborhoodValue : List String)
    (circleCoords : Option (ℚ × ℚ)) (circleRadius : Option ℚ)
    (dateRange : Option (Int × Int)) : Option (List Record) :=
  if categoryValue.isEmpty then none
  else if cache.isEmpty then none
  else
    let df := dateFilter dateRange cache
    let df := match hourValue with
      | some hr => hourFilter hr.1 hr.2 df
      | none => df
    let df := df.filter fun r => decide (r.category ∈ categoryValue)
    let df := neighborhoodFilter neighborhoodValue df
    let df := mapCircleStage circleCoords circleRadius df
    let df := coordFilter df
    if df.isEmpty then none
    else some ((sortByDateDesc df).take 5000)

/-! ## Trend chart (`update_trend_chart` in app.py) -/

/-- Ranking metric selector: `count` is `value_counts()`, `hazard` the mean of
`hazardness` with missing scores filled with 0. -/
inductive Metric | count | hazard
  deriving DecidableEq, Repr

/-- `neighborhood-sort-order`: `top` keeps `head(10)` of the descending
ranking, `bottom` keeps `tail(10)`. -/
inductive SortOrder | top | bottom
  deriving DecidableEq, Repr

/-- Adaptive time-bucket width. -/
inductive Bucket | month | week | day
  deriving DecidableEq, Repr

/-- The bucket-width rule of `update_trend_chart`:
`if days > 180: month elif days > 60: week else: day`. -/
def bucketRule (spanDays : Int) : Bucket :=
  if spanDays > 180 then .month else if spanDays > 60 then .week else .day

/-- Civil calendar from a day number (days since 1970-01-01), used to model
pandas month periods and the SQL `strftime('%Y')`; returns `(year, month, day)`. -/
def civilFromDays (z0 : Int) : Int × Int × Int :=
  let z := z0 + 719468
  let era := (if z ≥ 0 then z else z - 146096) / 146097
  let doe := z - era * 146097
  let yoe := (doe - doe / 1460 + doe / 36524 - doe / 146096) / 365
  let y := yoe + era * 400
  let doy := doe - (365 * yoe + yoe / 4 - yoe / 100)
  let mp := (5 * doy + 2) / 153
  let d := doy - (153 * mp + 2) / 5 + 1
  let m := mp + (if mp < 10 then 3 else -9)
  (y + (if m ≤ 2 then 1 else 0), m, d)

/-- `df.date.dt.to_period(...)`: the bucket key of a day number.  Month buckets
are the calendar month index, week buckets the start of the 7-day block, day
buckets the day itself. -/
def periodOf (b : Bucket) (d : Int) : Int :=
  match b with
  | .month => (civilFromDays d).1 * 12 + (civilFromDays d).2.1
  | .week => d - d % 7
  | .day => d

/-- The record set the trend chart works on: the cached data, date-filtered,
with the current still-accumulating month dropped
(`df = df[df.date < first_of_current_month]`). -/
def trendBase (firstOfMonth : Int) (dr : Option (Int × Int)) (cache : List Record) :
    List Record :=
  (dateFilter dr cache).filter fun r => decide (r.date < firstOfMonth)

/-- The per-neighborhood metric over a record set: row count
(`value_counts()`) or mean hazard score with missing scores as 0
(`to_numeric(...).fillna(0)` then `groupby('area').mean()`). -/
def metricOf (m : Metric) (rs : List Record) (a : String) : ℚ :=
  let g := rs.filter fun r => decide (r.area = a)
  match m with
  | .count => (g.length : ℚ)
  | .hazard =>
    if g.length = 0 then 0 else (g.map fun r => r.hazardness.getD 0).sum / (g.length : ℚ)

/-- The distinct neighborhoods of a record set (the group keys of
`value_counts` / `groupby('area')`). -/
def areasOf (rs : List Record) : List String :=
  (rs.map (·.area)).dedup

/-- Neighborhoods sorted by metric, descending (`sort_values(ascending=False)`
resp. the descending order of `value_counts()`; ties in stable model order). -/
def rankedAreas (m : Metric) (rs : List Record) : List String :=
  (areasOf rs).insertionSort fun a b => metricOf m rs b ≤ metricOf m rs a

/-- `selected_areas`: `head(10)` of the descending ranking for `top`,
`tail(10)` for `bottom`. -/
def selectedAreas (m : Metric) (ord : SortOrder) (rs : List Record) : List String :=
  match ord with
  | .top => (rankedAreas m rs).take 10
  | .bottom => (rankedAreas m rs).drop ((rankedAreas m rs).length - 10)

/-- The `(bucket, neighborhood)` group keys present in a record set, ordered by
bucket ascending (`groupby(['period','area'])` then `sort_values('date')`). -/
def periodKeys (b : Bucket) (rs : List Record) : List (Int × String) :=
  ((rs.map fun r => (periodOf b r.date, r.area)).dedup).insertionSort fun k1 k2 => k1.1 ≤ k2.1

/-- Re-aggregation of a record set into `(bucket, neighborhood) → value`, using
the same metric definition (count or mean hazard) within each group. -/
def bucketAgg (m : Metric) (b : Bucket) (rs : List Record) : List ((Int × String) × ℚ) :=
  (periodKeys b rs).map fun k =>
    (k, metricOf m (rs.filter fun r => decide (periodOf b r.date = k.1)) k.2)

/-- `update_trend_chart` from app.py as a pure function: date filter, drop of
the current month, adaptive bucket from the span of the remaining dates,
whole-set ranking, top/bottom-10 selection, and bucketed re-aggregation of the
selected neighborhoods only. -/
def update_trend_chart (firstOfMonth : Int) (dr : Option (Int × Int)) (ord : SortOrder)
    (m : Metric) (cache : List Record) : List ((Int × String) × ℚ) :=
  let df := trendBase firstOfMonth dr cache
  if df.isEmpty then []
  else
    let span := ((df.map (·.date)).max?.getD 0) - ((df.map (·.date)).min?.getD 0)
    let sel := selectedAreas m ord df
    bucketAgg m (bucketRule span) (df.filter fun r => decide (r.area ∈ sel))

/-! ## Ingestion (ingeest_duckdb.py) and the cached store (app.py)

The DuckDB script normalizes raw CSV cells and builds the `crimes` table with a
`WHERE` clause; in SQL three-valued logic a `NULL` coordinate makes
`latitude BETWEEN 47.0 AND 48.1` evaluate to `NULL`, so the row is not kept. -/

/-- A raw coordinate cell: SQL `NULL`, the empty string, the sentinel
`'REDACTED'`, or a numeric value. -/
inductive RawCoord | null | emptyStr | redacted | num (q : ℚ)
  deriving DecidableEq, Repr

/-- The `CASE WHEN "Latitude" = 'REDACTED' OR "Latitude" = '' OR "Latitude" IS
NULL THEN NULL ELSE CAST(... AS DOUBLE) END` normalization: sentinels become
missing, never zero. -/
def normCoord : RawCoord → Option ℚ
  | .num q => some q
  | _ => none

/-- One raw row after the `t`/`p`/`u` CTEs: the coalesced parse result `dt`
(day number and hour; `none` when every `try_strptime` pattern failed) plus the
columns the `WHERE` clause reads. -/
structure RawRow where
  dt : Option (Int × Int)
  offense : String
  area : String
  precinct : String
  sector : String
  mcpp : String
  nibrsCode : String
  offenseSub : String
  latitude : RawCoord
  longitude : RawCoord
  deriving DecidableEq, Repr

/-- Which optional source columns exist (`has_mcpp`, `has_nibrs_code`,
`has_offense_sub`); each adds one more `WHERE` conjunct. -/
structure IngestFlags where
  hasMcpp : Bool
  hasNibrs : Bool
  hasOffenseSub : Bool
  deriving DecidableEq, Repr

/-- `CAST(strftime(dt, '%Y') AS INTEGER)`. -/
def yearOf (day : Int) : Int := (civilFromDays day).1

/-- The `WHERE` clause of the `crimes` table.  `dt IS NOT NULL`, `year >=
2008`, both coordinates non-NULL and inside the bounding box (a NULL
coordinate fails its `BETWEEN` conjunct), `sector <> '99'`,
`precinct <> 'OOJ'`, plus the flag-dependent conjuncts. -/
def rowPasses (f : IngestFlags) (r : RawRow) : Bool :=
  match r.dt, normCoord r.latitude, normCoord r.longitude with
  | some d, some la, some lo =>
    decide (yearOf d.1 ≥ 2008) &&
    decide ((47 : ℚ) ≤ la) && decide (la ≤ 48.1) &&
    decide ((-123.5 : ℚ) ≤ lo) && decide (lo ≤ -121) &&
    decide (r.sector ≠ "99") && decide (r.precinct ≠ "OOJ") &&
    (!f.hasNibrs || decide (r.nibrsCode ≠ "999")) &&
    (!f.hasOffenseSub || decide (r.offenseSub ≠ "999")) &&
    (!f.hasMcpp || decide (r.mcpp ≠ "UNKNOWN"))
  | _, _, _ => false

/-- One row of the `crimes` table. -/
structure CrimeRow where
  date : Int
  hour : Int
  offense : String
  area : String
  latitude : Option ℚ
  longitude : Option ℚ
  deriving DecidableEq, Repr

/-- The `SELECT` list applied to a surviving row. -/
def normalizeRow (r : RawRow) : CrimeRow :=
  { date := (r.dt.getD (0, 0)).1
    hour := (r.dt.getD (0, 0)).2
    offense := r.offense
    area := r.area
    latitude := normCoord r.latitude
    longitude := normCoord r.longitude }

/-- `CREATE TABLE crimes AS SELECT ... WHERE <filters>`: the canonical store
built by the ingestion script. -/
def ingestCrimes (f : IngestFlags) (rows : List RawRow) : List CrimeRow :=
  (rows.filter (rowPasses f)).map normalizeRow

/-- The `kpi_by_date` view: per date, `COUNT(*)` over the `crimes` table. -/
def kpi_by_date (crimes : List CrimeRow) : List (Int × Nat) :=
  ((crimes.map (·.date)).dedup).map fun d =>
    (d, (crimes.filter fun c => decide (c.date = d)).length)

/-- The sum of the per-date totals of `kpi_by_date`. -/
def kpiTotalSum (crimes : List CrimeRow) : Nat :=
  ((kpi_by_date crimes).map (·.2)).sum

/-- One raw CSV row as read by `load_from_csv` in app.py: only the coordinate
cells matter here (`NaN` is `none`). -/
structure CsvRow where
  latitude : Option ℚ
  longitude : Option ℚ
  deriving DecidableEq, Repr

/-- The row-dropping step of `load_from_csv` (and of `load_from_parquet` and
`convert_to_sqlite`): `df = df[df.Latitude.notna() & df.Longitude.notna()]`
runs before the cache is built, so coordinate-less rows never enter the store. -/
def load_from_csv (rows : List CsvRow) : List CsvRow :=
  rows.filter fun r => r.latitude.isSome && r.longitude.isSome

/-! ## Helper lemmas: the ray-casting loop body -/

/-- One loop iteration always succeeds and toggles `inside` exactly when the
edge-crossing test holds: inside the guarded region the y-window forces
`p1y ≠ p2y`, so `xinters` has been assigned in the same iteration whenever the
comparison `x <= xinters` is reached. -/
theorem pipEdge_eq (x y : ℚ) (e : Pt × Pt) (xi : Option ℚ) (b : Bool) :
    ∃ xi', pipEdge x y e.1.1 e.1.2 e.2.1 e.2.2 (xi, b) =
      some (xi', Bool.xor (edgeCrossing x y e) b) := by
  obtain ⟨⟨p1x, p1y⟩, ⟨p2x, p2y⟩⟩ := e
  by_cases h1 : min p1y p2y < y
  · by_cases h2 : y ≤ max p1y p2y
    · by_cases h3 : x ≤ max p1x p2x
      · have hy : p1y ≠ p2y := by
          intro he
          rw [he] at h1 h2
          rw [min_self] at h1
          rw [max_self] at h2
          exact absurd h2 (not_le.mpr h1)
        by_cases h4 : p1x = p2x
        · have hc : edgeCrossing x y ((p1x, p1y), (p2x, p2y)) = true := by
            simp only [edgeCrossing, Bool.and_eq_true, Bool.or_eq_true, decide_eq_true_eq]
            exact ⟨⟨⟨h1, h2⟩, h3⟩, Or.inl h4⟩
          refine ⟨some ((y - p1y) * (p2x - p1x) / (p2y - p1y) + p1x), ?_⟩
          rw [hc]
          simp only [pipEdge, if_pos h1, if_pos h2, if_pos h3, if_pos hy, if_pos h4,
            Bool.true_xor]
        · by_cases h5 : x ≤ (y - p1y) * (p2x - p1x) / (p2y - p1y) + p1x
          · have hc : edgeCrossing x y ((p1x, p1y), (p2x, p2y)) = true := by
              simp only [edgeCrossing, Bool.and_eq_true, Bool.or_eq_true, decide_eq_true_eq]
              exact ⟨⟨⟨h1, h2⟩, h3⟩, Or.inr h5⟩
            refine ⟨some ((y - p1y) * (p2x - p1x) / (p2y - p1y) + p1x), ?_⟩
            rw [hc]
            simp only [pipEdge, if_pos h1, if_pos h2, if_pos h3, if_pos hy, if_neg h4,
              if_pos h5, Bool.true_xor]
          · have hc : edgeCrossing x y ((p1x, p1y), (p2x, p2y)) = false := by
              simp only [edgeCrossing, decide_eq_false h4, decide_eq_false h5, Bool.or_false,
                Bool.false_or, Bool.and_false]
            refine ⟨some ((y - p1y) * (p2x - p1x) / (p2y - p1y) + p1x), ?_⟩
            rw [hc]
            simp only [pipEdge, if_pos h1, if_pos h2, if_pos h3, if_pos hy, if_neg h4,
              if_neg h5, Bool.false_xor]
      · have hc : edgeCrossing x y ((p1x, p1y), (p2x, p2y)) = false := by
          simp only [edgeCrossing, decide_eq_false h3, Bool.and_false, Bool.false_and]
        refine ⟨xi, ?_⟩
        rw [hc]
        simp only [pipEdge, if_pos h1, if_pos h2, if_neg h3, Bool.false_xor]
    · have hc : edgeCrossing x y ((p1x, p1y), (p2x, p2y)) = false := by
        simp only [edgeCrossing, decide_eq_false h2, Bool.and_false, Bool.false_and]
      refine ⟨xi, ?_⟩
      rw [hc]
      simp only [pipEdge, if_pos h1, if_neg h2, Bool.false_xor]
  · have hc : edgeCrossing x y ((p1x, p1y), (p2x, p2y)) = false := by
      simp only [edgeCrossing, decide_eq_false h1, Bool.and_false, Bool.false_and]
    refine ⟨xi, ?_⟩
    rw [hc]
    simp only [pipEdge, if_neg h1, Bool.false_xor]

/-- Folding the loop over any edge list never errors, and the final `inside`
flag is the initial flag xor-ed with the parity of the crossing count. -/
theorem pipFold_eq (x y : ℚ) (es : List (Pt × Pt)) :
    ∀ xi b, ∃ xi', pipFold x y es (xi, b) =
      some (xi', Bool.xor (es.countP (edgeCrossing x y) % 2 == 1) b) := by
  induction es with
  | nil =>
    intro xi b
    refine ⟨xi, ?_⟩
    have h0 : (List.countP (edgeCrossing x y) [] % 2 == 1) = false := rfl
    rw [h0, Bool.false_xor]
    rfl
  | cons e es ih =>
    intro xi b
    obtain ⟨xi1, h1⟩ := pipEdge_eq x y e xi b
    obtain ⟨xi2, h2⟩ := ih xi1 (Bool.xor (edgeCrossing x y e) b)
    refine ⟨xi2, ?_⟩
    have hstep : pipFold x y (e :: es) (xi, b) =
        match pipEdge x y e.1.1 e.1.2 e.2.1 e.2.2 (xi, b) with
        | none => none
        | some s2 => pipFold x y es s2 := rfl
    rw [hstep, h1]
    show pipFold x y es (xi1, Bool.xor (edgeCrossing x y e) b) = _
    rw [h2]
    congr 2
    rw [List.countP_cons]
    cases hc : edgeCrossing x y e
    · simp only [Bool.false_eq_true, if_false, add_zero, Bool.false_xor]
    · rw [if_pos rfl]
      rcases Nat.mod_two_eq_zero_or_one (es.countP (edgeCrossing x y)) with h | h
      · have h2' : (es.countP (edgeCrossing x y) + 1) % 2 = 1 := by omega
        rw [h, h2']
        cases b <;> rfl
      · have h2' : (es.countP (edgeCrossing x y) + 1) % 2 = 0 := by omega
        rw [h, h2']
        cases b <;> rfl

/-- For a non-empty vertex list, `point_in_polygon` returns the parity of the
number of crossing edges. -/
theorem pip_parity (lat lon : ℚ) (poly : List Pt) (h : poly ≠ []) :
    point_in_polygon lat lon poly =
      some ((edgesOf poly).countP (edgeCrossing lon lat) % 2 == 1) := by
  cases poly with
  | nil => exact absurd rfl h
  | cons p ps =>
    obtain ⟨xi', hf⟩ := pipFold_eq lon lat (edgesOf (p :: ps)) none false
    have hdef : point_in_polygon lat lon (p :: ps) =
        (pipFold lon lat (edgesOf (p :: ps)) (none, false)).map (·.2) := rfl
    rw [hdef, hf, Bool.xor_false]
    rfl

/-- A horizontal edge (`p1y = p2y`) never contributes a crossing: the strict
lower bound and the inclusive upper bound of the y-window cannot both hold. -/
theorem edgeCrossing_horizontal (x y : ℚ) (e : Pt × Pt) (h : e.1.2 = e.2.2) :
    edgeCrossing x y e = false := by
  unfold edgeCrossing
  rw [h, min_self, max_self]
  by_cases h1 : e.2.2 < y
  · simp [not_le.mpr h1]
  · simp [h1]

/-- A vertical edge (`p1x = p2x`) is treated as always satisfying the
x-intercept comparison: the crossing test degenerates to the y-window and the
right-end test. -/
theorem edgeCrossing_vertical (x y : ℚ) (e : Pt × Pt) (h : e.1.1 = e.2.1) :
    edgeCrossing x y e =
      (decide (min e.1.2 e.2.2 < y) && decide (y ≤ max e.1.2 e.2.2) &&
        decide (x ≤ max e.1.1 e.2.1)) := by
  simp [edgeCrossing, h]

/-- C2: for every polygon given as a sequence of (lon,lat) vertices (ring
closed implicitly) and every test point, `point_in_polygon` returns true iff
the number of edge crossings of the horizontal ray from the point is odd; an
edge with `p1y = p2y` never contributes a crossing, and an edge with
`p1x = p2x` is treated as always satisfying the x-intercept comparison. -/
theorem point_in_polygon_is_crossing_parity :
    (∀ (lat lon : ℚ) (poly : List Pt), poly ≠ [] →
      point_in_polygon lat lon poly =
        some ((edgesOf poly).countP (edgeCrossing lon lat) % 2 == 1)) ∧
    (∀ (x y : ℚ) (e : Pt × Pt), e.1.2 = e.2.2 → edgeCrossing x y e = false) ∧
    (∀ (x y : ℚ) (e : Pt × Pt), e.1.1 = e.2.1 →
      edgeCrossing x y e =
        (decide (min e.1.2 e.2.2 < y) && decide (y ≤ max e.1.2 e.2.2) &&
          decide (x ≤ max e.1.1 e.2.1))) :=
  ⟨pip_parity, edgeCrossing_horizontal, edgeCrossing_vertical⟩

/-- Witness for C2: the center of the unit square crosses exactly one edge
(the right vertical edge) and is reported inside. -/
theorem point_in_polygon_is_crossing_parity_witness :
    point_in_polygon (1/2 : ℚ) (1/2) [((0 : ℚ), (0 : ℚ)), (1, 0), (1, 1), (0, 1)] =
      some true := by
  rw [point_in_polygon_is_crossing_parity.1 (1/2) (1/2) _ (List.cons_ne_nil _ _)]
  norm_num [edgesOf, edgeCrossing, List.countP_cons, List.countP_nil, min_def, max_def]

/-- C10: for every vertex list with at least one vertex and every test point,
`point_in_polygon` terminates normally and never reads an unassigned
`xinters`: one loop iteration never errors (a horizontal edge cannot pass the
y-window, so `xinters` is assigned before `x <= xinters` is evaluated), and
the whole loop returns a value. -/
theorem point_in_polygon_no_unbound_local :
    (∀ (x y p1x p1y p2x p2y : ℚ) (s : Option ℚ × Bool),
      pipEdge x y p1x p1y p2x p2y s ≠ none) ∧
    (∀ (lat lon : ℚ) (poly : List Pt), poly ≠ [] →
      ∃ b, point_in_polygon lat lon poly = some b) := by
  constructor
  · intro x y p1x p1y p2x p2y s
    obtain ⟨xi, b⟩ := s
    obtain ⟨xi', h⟩ := pipEdge_eq x y ((p1x, p1y), (p2x, p2y)) xi b
    have h' : pipEdge x y p1x p1y p2x p2y (xi, b) =
        some (xi', Bool.xor (edgeCrossing x y ((p1x, p1y), (p2x, p2y))) b) := h
    rw [h']
    exact fun hn => Option.noConfusion hn
  · intro lat lon poly h
    exact ⟨_, pip_parity lat lon poly h⟩

/-- Witness for C10 at a concrete edge, state and one-vertex polygon. -/
theorem point_in_polygon_no_unbound_local_witness :
    pipEdge (0 : ℚ) 0 0 0 1 1 (none, false) ≠ none ∧
      ∃ b, point_in_polygon (0 : ℚ) 0 [((1 : ℚ), (1 : ℚ))] = some b :=
  ⟨point_in_polygon_no_unbound_local.1 0 0 0 0 1 1 (none, false),
   point_in_polygon_no_unbound_local.2 0 0 [((1 : ℚ), (1 : ℚ))] (List.cons_ne_nil _ _)⟩

/-! ## Helper lemmas: degenerate polygons -/

/-- Swapping an edge's endpoints does not change the crossing test. -/
theorem edgeCrossing_swap (x y : ℚ) (p q : Pt) :
    edgeCrossing x y (p, q) = edgeCrossing x y (q, p) := by
  by_cases h1 : min p.2 q.2 < y
  · by_cases h2 : y ≤ max p.2 q.2
    · by_cases h3 : x ≤ max p.1 q.1
      · have hy : p.2 ≠ q.2 := by
          intro he
          rw [he, min_self] at h1
          rw [he, max_self] at h2
          exact absurd h2 (not_le.mpr h1)
        by_cases h4 : p.1 = q.1
        · rw [edgeCrossing_vertical x y (p, q) h4, edgeCrossing_vertical x y (q, p) h4.symm]
          rw [show min (p, q).1.2 (p, q).2.2 = min (q, p).1.2 (q, p).2.2 from min_comm _ _,
            show max (p, q).1.2 (p, q).2.2 = max (q, p).1.2 (q, p).2.2 from max_comm _ _,
            show max (p, q).1.1 (p, q).2.1 = max (q, p).1.1 (q, p).2.1 from max_comm _ _]
        · have hI : (y - p.2) * (q.1 - p.1) / (q.2 - p.2) + p.1
              = (y - q.2) * (p.1 - q.1) / (p.2 - q.2) + q.1 := by
            have hne : q.2 - p.2 ≠ 0 := sub_ne_zero.mpr (Ne.symm hy)
            have hne' : p.2 - q.2 ≠ 0 := sub_ne_zero.mpr hy
            field_simp
            ring
          by_cases h5 : x ≤ (y - p.2) * (q.1 - p.1) / (q.2 - p.2) + p.1
          · have l1 : edgeCrossing x y (p, q) = true := by
              simp only [edgeCrossing, Bool.and_eq_true, Bool.or_eq_true, decide_eq_true_eq]
              exact ⟨⟨⟨h1, h2⟩, h3⟩, Or.inr h5⟩
            have r1 : edgeCrossing x y (q, p) = true := by
              simp only [edgeCrossing, Bool.and_eq_true, Bool.or_eq_true, decide_eq_true_eq]
              refine ⟨⟨⟨?_, ?_⟩, ?_⟩, Or.inr ?_⟩
              · rw [min_comm]; exact h1
              · rw [max_comm]; exact h2
              · rw [max_comm]; exact h3
              · rw [← hI]; exact h5
            rw [l1, r1]
          · have l1 : edgeCrossing x y (p, q) = false := by
              simp only [edgeCrossing, decide_eq_false h4, decide_eq_false h5, Bool.or_false,
                Bool.false_or, Bool.and_false]
            have r1 : edgeCrossing x y (q, p) = false := by
              have h4' : ¬(q.1 = p.1) := fun he => h4 he.symm
              have h5' : ¬(x ≤ (y - q.2) * (p.1 - q.1) / (p.2 - q.2) + q.1) := by
                rw [← hI]; exact h5
              simp only [edgeCrossing, decide_eq_false h4', decide_eq_false h5', Bool.or_false,
                Bool.false_or, Bool.and_false]
            rw [l1, r1]
      · have l1 : edgeCrossing x y (p, q) = false := by
          simp only [edgeCrossing, decide_eq_false h3, Bool.and_false, Bool.false_and]
        have h3' : ¬(x ≤ max q.1 p.1) := by rw [max_comm]; exact h3
        have r1 : edgeCrossing x y (q, p) = false := by
          simp only [edgeCrossing, decide_eq_false h3', Bool.and_false, Bool.false_and]
        rw [l1, r1]
    · have l1 : edgeCrossing x y (p, q) = false := by
        simp only [edgeCrossing, decide_eq_false h2, Bool.and_false, Bool.false_and]
      have h2' : ¬(y ≤ max q.2 p.2) := by rw [max_comm]; exact h2
      have r1 : edgeCrossing x y (q, p) = false := by
        simp only [edgeCrossing, decide_eq_false h2', Bool.and_false, Bool.false_and]
      rw [l1, r1]
  · have l1 : edgeCrossing x y (p, q) = false := by
      simp only [edgeCrossing, decide_eq_false h1, Bool.and_false, Bool.false_and]
    have h1' : ¬(min q.2 p.2 < y) := by rw [min_comm]; exact h1
    have r1 : edgeCrossing x y (q, p) = false := by
      simp only [edgeCrossing, decide_eq_false h1', Bool.and_false, Bool.false_and]
    rw [l1, r1]

/-- A one-vertex polygon: its single self-loop edge is horizontal, so no point
is ever inside. -/
theorem pip_single (lat lon : ℚ) (a : Pt) :
    point_in_polygon lat lon [a] = some false := by
  rw [pip_parity lat lon [a] (List.cons_ne_nil _ _)]
  have he : edgesOf [a] = [(a, a)] := rfl
  rw [he, List.countP_cons, List.countP_nil,
    edgeCrossing_horizontal lon lat (a, a) rfl]
  rfl

/-- A two-vertex polygon: both edges are the same segment traversed twice, so
the parity is even and no point is ever inside. -/
theorem pip_two (lat lon : ℚ) (a b : Pt) :
    point_in_polygon lat lon [a, b] = some false := by
  rw [pip_parity lat lon [a, b] (List.cons_ne_nil _ _)]
  have he : edgesOf [a, b] = [(a, b), (b, a)] := rfl
  rw [he, List.countP_cons, List.countP_cons, List.countP_nil,
    edgeCrossing_swap lon lat a b]
  cases hc : edgeCrossing lon lat (b, a) <;> rfl

/-- If every point tests outside, the row-wise polygon mask keeps nothing. -/
theorem filterPip_of_false (coords : List Pt)
    (hall : ∀ la lo, point_in_polygon la lo coords = some false) :
    ∀ rs : List Record, filterPip coords rs = some [] := by
  intro rs
  induction rs with
  | nil => rfl
  | cons r rs ih =>
    have hstep : filterPip coords (r :: rs) =
        match point_in_polygon (r.latitude.getD 0) (r.longitude.getD 0) coords,
            filterPip coords rs with
        | some b, some rest => some (if b then r :: rest else rest)
        | _, _ => none := rfl
    rw [hstep, hall, ih]
    rfl

/-- The polygon block keeps nothing when every point tests outside the ring,
whatever the bounding-box pre-filter leaves. -/
theorem polygonStage_of_false (c : Pt) (cs : List Pt)
    (hall : ∀ la lo, point_in_polygon la lo (c :: cs) = some false) (df : List Record) :
    polygonStage (c :: cs) df = some [] := by
  have h1 : polygonStage (c :: cs) df =
      filterPip (c :: cs) (df.filter fun r =>
        decide ((((c :: cs).map (·.2)).foldl min c.2) ≤ r.latitude.getD 0) &&
        decide (r.latitude.getD 0 ≤ (((c :: cs).map (·.2)).foldl max c.2)) &&
        decide ((((c :: cs).map (·.1)).foldl min c.1) ≤ r.longitude.getD 0) &&
        decide (r.longitude.getD 0 ≤ (((c :: cs).map (·.1)).foldl max c.1))) := rfl
  rw [h1, filterPip_of_false _ hall]

/-- Every downstream stage maps an empty frame to an empty frame. -/
theorem hourFilter_nil (lo hi : Int) : hourFilter lo hi [] = [] := by
  have h : hourFilter lo hi [] =
      if lo = 0 ∧ hi = 24 then ([] : List Record)
      else List.filter (fun r => decide (lo ≤ r.hour) && decide (r.hour ≤ min hi 23)) [] := rfl
  rw [h]
  split <;> rfl

theorem categoryFilter_nil (cats : List String) : categoryFilter cats [] = [] := by
  have h : categoryFilter cats [] =
      if cats.isEmpty then ([] : List Record)
      else List.filter (fun r => decide (r.category ∈ cats)) [] := rfl
  rw [h]
  split <;> rfl

theorem neighborhoodFilter_nil (nbs : List String) : neighborhoodFilter nbs [] = [] := by
  have h : neighborhoodFilter nbs [] =
      if nbs.isEmpty then ([] : List Record)
      else List.filter (fun r => decide (r.area ∈ nbs)) [] := rfl
  rw [h]
  split <;> rfl

theorem circleStage_nil (cc : Option (ℚ × ℚ)) (cr : Option ℚ) : circleStage cc cr [] = [] := by
  cases cc with
  | none => rfl
  | some c => rfl

/-- C7 (amended): a `FilterSpec` polygon with fewer than 3 vertices never
raises a fatal fault to the presentation layer (the update is total: a
0-vertex ring's `ValueError` is caught and replaced by an empty frame), but it
does NOT disable the geometric test: the ray-casting mask still runs, every
point tests outside a 1- or 2-vertex ring, and the query returns an empty
result rather than falling back to "no spatial restriction". -/
theorem degenerate_polygon_empty_result (cache : List Record) (coords : List Pt)
    (hv : Option (Int × Int)) (cats nbs : List String) (cc : Option (ℚ × ℚ))
    (cr : Option ℚ) (dr : Option (Int × Int)) (hlen : coords.length < 3) :
    update_table cache (some coords) hv cats nbs cc cr dr = [] := by
  have hdf : tableDf cache (some coords) dr = [] := by
    have ht : tableDf cache (some coords) dr =
        (if (coordFilter (dateFilter dr cache)).isEmpty then coordFilter (dateFilter dr cache)
         else
           match polygonStage coords (coordFilter (dateFilter dr cache)) with
           | some df' => df'
           | none => []) := rfl
    rw [ht]
    cases hemp : (coordFilter (dateFilter dr cache)).isEmpty with
    | true =>
      rw [if_pos rfl]
      exact List.isEmpty_iff.mp hemp
    | false =>
      rw [if_neg (by simp [hemp])]
      rcases coords with _ | ⟨a, _ | ⟨b, _ | ⟨c, t⟩⟩⟩
      · rfl
      · rw [polygonStage_of_false a [] (fun la lo => pip_single la lo a)]
      · rw [polygonStage_of_false a [b] (fun la lo => pip_two la lo a b)]
      · exact absurd hlen (by simp [List.length_cons])
  have hu : update_table cache (some coords) hv cats nbs cc cr dr =
      (if cats.isEmpty then ([] : List Record) else
        (sortByDatetimeDesc (circleStage cc cr (neighborhoodFilter nbs (categoryFilter cats
          (hourFilter (hv.getD (0, 23)).1 (hv.getD (0, 23)).2
            (tableDf cache (some coords) dr)))))).take 500) := rfl
  rw [hu, hdf, hourFilter_nil, categoryFilter_nil, neighborhoodFilter_nil, circleStage_nil]
  have hs : sortByDatetimeDesc ([] : List Record) = [] := rfl
  rw [hs]
  split <;> rfl

/-- A record with coordinates, used as concrete query input. -/
def recA : Record :=
  { date := 0, hour := 10, datetime := 0, category := "PERSON", area := "X",
    hazardness := none, latitude := some 1, longitude := some 1 }

/-- Counterexample to C7 as stated: with a 2-vertex polygon whose bounding box
contains the lone record, the claim predicts the polygon filter is disabled
(same result as no polygon), but the code returns an empty table instead. -/
theorem two_vertex_polygon_is_not_no_filter :
    update_table [recA] (some [((0 : ℚ), (0 : ℚ)), (2, 2)]) none ["PERSON"] [] none none none
        = [] ∧
    update_table [recA] none none ["PERSON"] [] none none none = [recA] ∧
    ([] : List Record) ≠ [recA] := by
  refine ⟨?_, ?_, ?_⟩
  · have hdf : tableDf [recA] (some [((0 : ℚ), (0 : ℚ)), (2, 2)]) none = [] := by
      have ht : tableDf [recA] (some [((0 : ℚ), (0 : ℚ)), (2, 2)]) none =
          (match polygonStage [((0 : ℚ), (0 : ℚ)), (2, 2)] [recA] with
           | some df' => df'
           | none => []) := rfl
      rw [ht, polygonStage_of_false _ _ (fun la lo => pip_two la lo ((0 : ℚ), (0 : ℚ)) (2, 2))]
    have hu : update_table [recA] (some [((0 : ℚ), (0 : ℚ)), (2, 2)]) none ["PERSON"] []
        none none none =
        (sortByDatetimeDesc (circleStage none none (neighborhoodFilter [] (categoryFilter
          ["PERSON"] (hourFilter 0 23
            (tableDf [recA] (some [((0 : ℚ), (0 : ℚ)), (2, 2)]) none)))))).take 500 := rfl
    rw [hu, hdf, hourFilter_nil, categoryFilter_nil, neighborhoodFilter_nil, circleStage_nil]
    rfl
  · rfl
  · simp

/-- C1: for every store and every query whose category selection is empty,
both query operations return an empty result before reading any data: the
table callback returns zero rows and the map callback renders the empty
figure (`none`), so the empty set means "select nothing", not "no filter". -/
theorem empty_categories_empty_result (cache : List Record) (poly : Option (List Pt))
    (hv : Option (Int × Int)) (nbs : List String) (cc : Option (ℚ × ℚ)) (cr : Option ℚ)
    (dr : Option (Int × Int)) :
    update_table cache poly hv [] nbs cc cr dr = [] ∧
      update_map_points cache hv [] nbs cc cr dr = none :=
  ⟨rfl, rfl⟩

/-- Witness for C7 at a one-vertex polygon. -/
theorem degenerate_polygon_empty_result_witness :
    update_table [recA] (some [((5 : ℚ), (5 : ℚ))]) none ["PERSON"] [] none none none = [] :=
  degenerate_polygon_empty_result [recA] [((5 : ℚ), (5 : ℚ))] none ["PERSON"] [] none none
    none (by decide)

/-! ## Helper lemmas: haversine and circle filter -/

/-- The haversine distance from a point to itself is zero. -/
theorem haversine_self (lat lon : ℝ) : haversine_distance lat lon lat lon = 0 := by
  simp [haversine_distance]

/-- C3: the circle filter of `update_table` includes a record with coordinates
iff the haversine great-circle distance (Earth radius 6,371,000 m) from the
record's coordinate to the circle center is at most the radius; in particular
a record at distance exactly equal to the radius is included. -/
theorem circle_filter_boundary_inclusive (clat clon radius : ℚ) (rs : List Record)
    (r : Record) (la lo : ℚ) (hla : r.latitude = some la) (hlo : r.longitude = some lo) :
    (r ∈ circleFilterRows clat clon radius rs ↔
      r ∈ rs ∧ haversine_distance (clat : ℝ) (clon : ℝ) (la : ℝ) (lo : ℝ) ≤ (radius : ℝ)) ∧
    (r ∈ rs → haversine_distance (clat : ℝ) (clon : ℝ) (la : ℝ) (lo : ℝ) = (radius : ℝ) →
      r ∈ circleFilterRows clat clon radius rs) := by
  have hiff : r ∈ circleFilterRows clat clon radius rs ↔
      r ∈ rs ∧ haversine_distance (clat : ℝ) (clon : ℝ) (la : ℝ) (lo : ℝ) ≤ (radius : ℝ) := by
    rw [show circleFilterRows clat clon radius rs = rs.filter (fun s : Record =>
        match s.latitude, s.longitude with
        | some a, some b =>
          @decide (haversine_distance (clat : ℝ) (clon : ℝ) (a : ℝ) (b : ℝ) ≤ (radius : ℝ))
            (Classical.propDecidable _)
        | _, _ => false) from rfl, List.mem_filter]
    constructor
    · rintro ⟨hm, hp⟩
      refine ⟨hm, ?_⟩
      rw [hla, hlo] at hp
      exact of_decide_eq_true hp
    · rintro ⟨hm, hd⟩
      refine ⟨hm, ?_⟩
      rw [hla, hlo]
      exact decide_eq_true hd
  exact ⟨hiff, fun hm hd => hiff.mpr ⟨hm, le_of_eq hd⟩⟩

/-- A record located exactly at a circle center. -/
def recC : Record :=
  { date := 0, hour := 0, datetime := 0, category := "PERSON", area := "X",
    hazardness := none, latitude := some 47, longitude := some (-122) }

/-- Witness for C3: a record at the center (distance 0 = radius 0) is kept. -/
theorem circle_filter_boundary_inclusive_witness :
    recC ∈ circleFilterRows 47 (-122) 0 [recC] := by
  refine (circle_filter_boundary_inclusive 47 (-122) 0 [recC] recC 47 (-122) rfl rfl).2
    (List.mem_singleton.mpr rfl) ?_
  rw [haversine_self]
  norm_num

/-- C4: the shared hour filter: `[0,24]` skips the filter entirely; `[h,h]`
keeps exactly the records with `hour = h` (the data only holds hours 0–23);
with upper bound 24 ("through end of day") records with hour 23 pass. -/
theorem hour_filter_ranges :
    (∀ rs : List Record, hourFilter 0 24 rs = rs) ∧
    (∀ (h : Int) (rs : List Record), (∀ r ∈ rs, r.hour ≤ 23) →
      hourFilter h h rs = rs.filter fun r => decide (r.hour = h)) ∧
    (∀ (lo : Int) (rs : List Record) (r : Record), lo ≤ 23 → r ∈ rs → r.hour = 23 →
      r ∈ hourFilter lo 24 rs) := by
  refine ⟨?_, ?_, ?_⟩
  · intro rs
    have hdef : hourFilter 0 24 rs =
        if (0 : Int) = 0 ∧ (24 : Int) = 24 then rs
        else rs.filter fun r => decide ((0 : Int) ≤ r.hour) && decide (r.hour ≤ min 24 23) :=
      rfl
    rw [hdef, if_pos ⟨rfl, rfl⟩]
  · intro h rs hle
    have hdef : hourFilter h h rs =
        if h = 0 ∧ h = 24 then rs
        else rs.filter fun r => decide (h ≤ r.hour) && decide (r.hour ≤ min h 23) := rfl
    have hne : ¬(h = 0 ∧ h = 24) := by rintro ⟨h0, h24⟩; omega
    rw [hdef, if_neg hne]
    apply List.filter_congr
    intro r hr
    have hh := hle r hr
    rw [Bool.eq_iff_iff]
    simp only [Bool.and_eq_true, decide_eq_true_eq]
    rcases le_or_lt h 23 with hc | hc
    · rw [min_eq_left hc]
      omega
    · rw [min_eq_right (le_of_lt hc)]
      omega
  · intro lo rs r hlo hr h23
    have hdef : hourFilter lo 24 rs =
        if lo = 0 ∧ (24 : Int) = 24 then rs
        else rs.filter fun r => decide (lo ≤ r.hour) && decide (r.hour ≤ min 24 23) := rfl
    rw [hdef]
    by_cases h0 : lo = 0
    · rw [if_pos ⟨h0, rfl⟩]
      exact hr
    · rw [if_neg fun hc => h0 hc.1, List.mem_filter]
      refine ⟨hr, ?_⟩
      rw [Bool.and_eq_true, decide_eq_true_eq, decide_eq_true_eq, h23]
      have hm : min (24 : Int) 23 = 23 := min_eq_right (by norm_num)
      rw [hm]
      exact ⟨hlo, le_refl _⟩

/-- A record in the 23rd hour. -/
def recB : Record :=
  { date := 0, hour := 23, datetime := 0, category := "PERSON", area := "X",
    hazardness := none, latitude := some 1, longitude := some 1 }

/-- Witness for C4 at singleton stores. -/
theorem hour_filter_ranges_witness :
    hourFilter 0 24 [recA] = [recA] ∧
    hourFilter 10 10 [recA] = List.filter (fun r => decide (r.hour = 10)) [recA] ∧
    recB ∈ hourFilter 3 24 [recB] := by
  refine ⟨hour_filter_ranges.1 [recA], hour_filter_ranges.2.1 10 [recA] ?_,
    hour_filter_ranges.2.2 3 [recB] recB (by norm_num) (List.mem_singleton.mpr rfl) rfl⟩
  intro r hr
  rw [List.mem_singleton.mp hr]
  decide

/-! ## Helper lemmas: the display samplers -/

/-- The stable model of `sort_values('datetime', ascending=False)` is sorted
descending by `datetime`. -/
theorem sortByDatetimeDesc_sorted (rs : List Record) :
    List.Sorted (fun a b : Record => b.datetime ≤ a.datetime) (sortByDatetimeDesc rs) := by
  haveI : IsTotal Record (fun a b : Record => b.datetime ≤ a.datetime) :=
    ⟨fun a b => le_total b.datetime a.datetime⟩
  haveI : IsTrans Record (fun a b : Record => b.datetime ≤ a.datetime) :=
    ⟨fun a b c h1 h2 => le_trans h2 h1⟩
  exact List.sorted_insertionSort _ rs

/-- The stable model of `sort_values('date', ascending=False)` is sorted
descending by `date`. -/
theorem sortByDateDesc_sorted (rs : List Record) :
    List.Sorted (fun a b : Record => b.date ≤ a.date) (sortByDateDesc rs) := by
  haveI : IsTotal Record (fun a b : Record => b.date ≤ a.date) :=
    ⟨fun a b => le_total b.date a.date⟩
  haveI : IsTrans Record (fun a b : Record => b.date ≤ a.date) :=
    ⟨fun a b c h1 h2 => le_trans h2 h1⟩
  exact List.sorted_insertionSort _ rs

/-- C9 (amended): the table sampler returns at most 500 rows ordered by the
full timestamp (`datetime`) descending, as the claim states; the map sampler
returns at most 5,000 points but orders them by the calendar date (`date`)
descending — time of day is ignored, so "most recent" holds only at day
precision for the map. -/
theorem sampler_sort_keys (cache : List Record) (poly : Option (List Pt))
    (hv : Option (Int × Int)) (cats nbs : List String) (cc : Option (ℚ × ℚ)) (cr : Option ℚ)
    (dr : Option (Int × Int)) :
    List.Sorted (fun a b : Record => b.datetime ≤ a.datetime)
        (update_table cache poly hv cats nbs cc cr dr) ∧
    (update_table cache poly hv cats nbs cc cr dr).length ≤ 500 ∧
    ∀ pts, update_map_points cache hv cats nbs cc cr dr = some pts →
      List.Sorted (fun a b : Record => b.date ≤ a.date) pts ∧ pts.length ≤ 5000 := by
  have hu : update_table cache poly hv cats nbs cc cr dr =
      (if cats.isEmpty then ([] : List Record) else
        (sortByDatetimeDesc (circleStage cc cr (neighborhoodFilter nbs (categoryFilter cats
          (hourFilter (hv.getD (0, 23)).1 (hv.getD (0, 23)).2
            (tableDf cache poly dr)))))).take 500) := rfl
  have hm : update_map_points cache hv cats nbs cc cr dr =
      (if cats.isEmpty then none
       else if cache.isEmpty then none
       else
         if (coordFilter (mapCircleStage cc cr (neighborhoodFilter nbs ((match hv with
              | some hr => hourFilter hr.1 hr.2 (dateFilter dr cache)
              | none => dateFilter dr cache).filter
                fun r => decide (r.category ∈ cats))))).isEmpty
         then none
         else
           some ((sortByDateDesc (coordFilter (mapCircleStage cc cr (neighborhoodFilter nbs
             ((match hv with
              | some hr => hourFilter hr.1 hr.2 (dateFilter dr cache)
              | none => dateFilter dr cache).filter
                fun r => decide (r.category ∈ cats)))))).take 5000)) := rfl
  refine ⟨?_, ?_, ?_⟩
  · rw [hu]
    split
    · exact List.sorted_nil
    · exact List.Pairwise.sublist (List.take_sublist _ _) (sortByDatetimeDesc_sorted _)
  · rw [hu]
    split
    · simp
    · rw [List.length_take]
      exact min_le_left _ _
  · intro pts h
    rw [hm] at h
    split at h
    · exact Option.noConfusion h
    · split at h
      · exact Option.noConfusion h
      · split at h
        · exact Option.noConfusion h
        · have hp := Option.some.inj h
          subst hp
          exact ⟨List.Pairwise.sublist (List.take_sublist _ _) (sortByDateDesc_sorted _),
            le_of_le_of_eq (Nat.le_of_eq (List.length_take _ _)) rfl |>.trans (min_le_left _ _)⟩

/-- Witness for C9: a singleton store flows through both samplers. -/
theorem sampler_sort_keys_witness :
    List.Sorted (fun a b : Record => b.datetime ≤ a.datetime)
        (update_table [recA] none none ["PERSON"] [] none none none) ∧
    List.Sorted (fun a b : Record => b.date ≤ a.date) [recA] ∧
      ([recA] : List Record).length ≤ 5000 := by
  refine ⟨(sampler_sort_keys [recA] none none ["PERSON"] [] none none none).1, ?_, ?_⟩
  · exact ((sampler_sort_keys [recA] none none ["PERSON"] [] none none none).2.2 [recA] rfl).1
  · exact ((sampler_sort_keys [recA] none none ["PERSON"] [] none none none).2.2 [recA] rfl).2

/-- Two same-day records whose times differ. -/
def recQ0 : Record :=
  { date := 0, hour := 0, datetime := 0, category := "PERSON", area := "X",
    hazardness := none, latitude := some 1, longitude := some 1 }

/-- The later record of the pair: same calendar date, later timestamp. -/
def recQ1 : Record :=
  { date := 0, hour := 1, datetime := 1, category := "PERSON", area := "X",
    hazardness := none, latitude := some 1, longitude := some 1 }

/-- Counterexample to C9 as stated: the map sampler keys its sort on the
calendar date, so two same-day records keep their stored order, while sorting
by the full timestamp descending (what the claim states) would reverse them. -/
theorem map_sampler_date_key_counterexample :
    update_map_points [recQ0, recQ1] none ["PERSON"] [] none none none =
      some [recQ0, recQ1] ∧
    (sortByDatetimeDesc [recQ0, recQ1]).take 5000 = [recQ1, recQ0] ∧
    some [recQ0, recQ1] ≠ some [recQ1, recQ0] := by
  refine ⟨rfl, rfl, ?_⟩
  decide

/-! ## Trend chart lemmas and claims -/

/-- C6 (amended): the adaptive bucket rule: a span strictly greater than 180
days gives month buckets, a span strictly greater than 60 and at most 180 days
gives week buckets, and a span of at most 60 days — including exactly 60 —
gives day buckets (the code tests `date_range_days > 60` strictly). -/
theorem bucket_rule_thresholds :
    (∀ s : Int, 180 < s → bucketRule s = .month) ∧
    (∀ s : Int, 60 < s → s ≤ 180 → bucketRule s = .week) ∧
    (∀ s : Int, s ≤ 60 → bucketRule s = .day) := by
  refine ⟨fun s h => ?_, fun s h1 h2 => ?_, fun s h => ?_⟩
  · simp [bucketRule, h]
  · have hn : ¬(s > 180) := by omega
    simp [bucketRule, hn, h1]
  · have hn : ¬(s > 180) := by omega
    have hn2 : ¬(s > 60) := by omega
    simp [bucketRule, hn, hn2]

/-- A record on day 0 (span endpoint). -/
def recD0 : Record :=
  { date := 0, hour := 0, datetime := 0, category := "PERSON", area := "X",
    hazardness := none, latitude := none, longitude := none }

/-- A record 60 days later (span endpoint). -/
def recD60 : Record :=
  { date := 60, hour := 0, datetime := 60, category := "PERSON", area := "Y",
    hazardness := none, latitude := none, longitude := none }

/-- Counterexample to C6 as stated: a filtered set spanning exactly 60 days is
bucketed by day, while the claim's "60 to 180 days" range promises week. -/
theorem bucket_rule_at_span_60 :
    (([recD0, recD60].map (·.date)).max?.getD 0 -
      ([recD0, recD60].map (·.date)).min?.getD 0) = 60 ∧
    bucketRule 60 = Bucket.day ∧ Bucket.day ≠ Bucket.week := by
  refine ⟨rfl, rfl, ?_⟩
  decide

/-- Witness for C6 at the three regimes. -/
theorem bucket_rule_thresholds_witness :
    bucketRule 181 = Bucket.month ∧ bucketRule 100 = Bucket.week ∧
      bucketRule 59 = Bucket.day :=
  ⟨bucket_rule_thresholds.1 181 (by norm_num),
   bucket_rule_thresholds.2.1 100 (by norm_num) (by norm_num),
   bucket_rule_thresholds.2.2 59 (by norm_num)⟩

/-- The whole-set neighborhood ranking is sorted by metric, descending. -/
theorem rankedAreas_sorted (m : Metric) (rs : List Record) :
    List.Sorted (fun a b => metricOf m rs b ≤ metricOf m rs a) (rankedAreas m rs) := by
  haveI : IsTotal String (fun a b => metricOf m rs b ≤ metricOf m rs a) :=
    ⟨fun a b => le_total _ _⟩
  haveI : IsTrans String (fun a b => metricOf m rs b ≤ metricOf m rs a) :=
    ⟨fun a b c h1 h2 => le_trans h2 h1⟩
  exact List.sorted_insertionSort _ _

/-- Filtering twice with the same predicate filters once. -/
theorem filter_self_twice (p : α → Bool) (l : List α) :
    (l.filter p).filter p = l.filter p := by
  induction l with
  | nil => rfl
  | cons a l ih =>
    cases hp : p a
    · simp [List.filter_cons, hp, ih]
    · simp [List.filter_cons, hp, ih]

/-- C5: the trend aggregation drops the current month first; the ranking
metric is computed per neighborhood over the entire remaining set; the
retained group-key set (at most 10 neighborhoods, the metric-largest for
`top`, the metric-smallest for `bottom`) is fixed before bucketing, and only
those neighborhoods appear in the bucketed output. -/
theorem trend_ranking_fixed_before_bucketing (fom : Int) (dr : Option (Int × Int))
    (ord : SortOrder) (m : Metric) (cache : List Record) :
    (∀ (k : Int × String) (v : ℚ), (k, v) ∈ update_trend_chart fom dr ord m cache →
      k.2 ∈ selectedAreas m ord (trendBase fom dr cache)) ∧
    (∀ a b : String, a ∈ selectedAreas m ord (trendBase fom dr cache) →
      b ∈ areasOf (trendBase fom dr cache) →
      b ∉ selectedAreas m ord (trendBase fom dr cache) →
      (ord = .top →
        metricOf m (trendBase fom dr cache) b ≤ metricOf m (trendBase fom dr cache) a) ∧
      (ord = .bottom →
        metricOf m (trendBase fom dr cache) a ≤ metricOf m (trendBase fom dr cache) b)) ∧
    (selectedAreas m ord (trendBase fom dr cache)).length ≤ 10 ∧
    update_trend_chart fom dr ord m cache =
      update_trend_chart fom dr ord m (cache.filter fun r => decide (r.date < fom)) := by
  refine ⟨?_, ?_, ?_, ?_⟩
  · intro k v hkv
    have hun : update_trend_chart fom dr ord m cache =
        (if (trendBase fom dr cache).isEmpty then []
         else bucketAgg m
           (bucketRule (((trendBase fom dr cache).map (·.date)).max?.getD 0 -
             ((trendBase fom dr cache).map (·.date)).min?.getD 0))
           ((trendBase fom dr cache).filter
             fun r => decide (r.area ∈ selectedAreas m ord (trendBase fom dr cache)))) := rfl
    rw [hun] at hkv
    split at hkv
    · exact absurd hkv (List.not_mem_nil _)
    · obtain ⟨k0, hk0, heq⟩ := List.mem_map.mp
        (show (k, v) ∈ (periodKeys _ _).map _ from hkv)
      have hk : k0 = k := congrArg Prod.fst heq
      obtain ⟨r, hrF, hr2⟩ := List.mem_map.mp (List.mem_dedup.mp
        (((List.perm_insertionSort _ _).mem_iff).mp hk0))
      have hsel := (List.mem_filter.mp hrF).2
      rw [← hk, ← congrArg Prod.snd hr2]
      exact of_decide_eq_true hsel
  · intro a b ha hb hnb
    have hbr : b ∈ rankedAreas m (trendBase fom dr cache) :=
      ((List.perm_insertionSort _ _).mem_iff).mpr hb
    have hsorted := rankedAreas_sorted m (trendBase fom dr cache)
    cases ord with
    | top =>
      have hsel : selectedAreas m .top (trendBase fom dr cache) =
          (rankedAreas m (trendBase fom dr cache)).take 10 := rfl
      rw [hsel] at ha hnb
      have hsplit : rankedAreas m (trendBase fom dr cache) =
          (rankedAreas m (trendBase fom dr cache)).take 10 ++
            (rankedAreas m (trendBase fom dr cache)).drop 10 :=
        (List.take_append_drop _ _).symm
      obtain ⟨-, -, hcross⟩ := List.pairwise_append.mp (hsplit ▸ hsorted)
      have hbd : b ∈ (rankedAreas m (trendBase fom dr cache)).drop 10 := by
        rcases List.mem_append.mp (hsplit ▸ hbr) with h | h
        · exact absurd h hnb
        · exact h
      exact ⟨fun _ => hcross a ha b hbd, fun hbot => (nomatch hbot)⟩
    | bottom =>
      have hsel : selectedAreas m .bottom (trendBase fom dr cache) =
          (rankedAreas m (trendBase fom dr cache)).drop
            ((rankedAreas m (trendBase fom dr cache)).length - 10) := rfl
      rw [hsel] at ha hnb
      have hsplit : rankedAreas m (trendBase fom dr cache) =
          (rankedAreas m (trendBase fom dr cache)).take
              ((rankedAreas m (trendBase fom dr cache)).length - 10) ++
            (rankedAreas m (trendBase fom dr cache)).drop
              ((rankedAreas m (trendBase fom dr cache)).length - 10) :=
        (List.take_append_drop _ _).symm
      obtain ⟨-, -, hcross⟩ := List.pairwise_append.mp (hsplit ▸ hsorted)
      have hbt : b ∈ (rankedAreas m (trendBase fom dr cache)).take
          ((rankedAreas m (trendBase fom dr cache)).length - 10) := by
        rcases List.mem_append.mp (hsplit ▸ hbr) with h | h
        · exact h
        · exact absurd h hnb
      exact ⟨fun htop => (nomatch htop), fun _ => hcross b hbt a ha⟩
  · cases ord with
    | top =>
      have hsel : selectedAreas m .top (trendBase fom dr cache) =
          (rankedAreas m (trendBase fom dr cache)).take 10 := rfl
      rw [hsel, List.length_take]
      exact min_le_left _ _
    | bottom =>
      have hsel : selectedAreas m .bottom (trendBase fom dr cache) =
          (rankedAreas m (trendBase fom dr cache)).drop
            ((rankedAreas m (trendBase fom dr cache)).length - 10) := rfl
      rw [hsel, List.length_drop]
      omega
  · have hbase : trendBase fom dr (cache.filter fun r => decide (r.date < fom)) =
        trendBase fom dr cache := by
      cases dr with
      | none =>
        exact filter_self_twice (fun r => decide (r.date < fom)) cache
      | some se =>
        have h1 : trendBase fom (some se) (cache.filter fun r => decide (r.date < fom)) =
            ((cache.filter fun r => decide (r.date < fom)).filter
              (fun r => decide (se.1 ≤ r.date) && decide (r.date ≤ se.2))).filter
                (fun r => decide (r.date < fom)) := rfl
        have h2 : trendBase fom (some se) cache =
            (cache.filter (fun r => decide (se.1 ≤ r.date) && decide (r.date ≤ se.2))).filter
              (fun r => decide (r.date < fom)) := rfl
        rw [h1, h2,
          List.filter_comm (fun r : Record => decide (se.1 ≤ r.date) && decide (r.date ≤ se.2))
            (fun r : Record => decide (r.date < fom)) cache]
        rw [filter_self_twice]
    have hfun : ∀ c : List Record, update_trend_chart fom dr ord m c =
        (fun df : List Record =>
          if df.isEmpty then ([] : List ((Int × String) × ℚ))
          else bucketAgg m
            (bucketRule ((df.map (·.date)).max?.getD 0 - (df.map (·.date)).min?.getD 0))
            (df.filter fun r => decide (r.area ∈ selectedAreas m ord df)))
          (trendBase fom dr c) := fun c => rfl
    rw [hfun cache, hfun (cache.filter fun r => decide (r.date < fom)), hbase]

/-- A coordinate-free record in a given neighborhood, for trend inputs. -/
def trendRec (a : String) : Record :=
  { date := 0, hour := 0, datetime := 0, category := "PERSON", area := a,
    hazardness := none, latitude := none, longitude := none }

/-- Eleven records in eleven distinct neighborhoods. -/
def cache11 : List Record :=
  ["a", "b", "c", "d", "e", "f", "g", "h", "i", "j", "k"].map trendRec

set_option maxHeartbeats 4000000 in
/-- Witness for C5: with eleven equally-ranked neighborhoods, the eleventh is
outside the top-10 selection and its metric is bounded by a selected one; and
a singleton store produces exactly its one bucketed entry. -/
theorem trend_ranking_fixed_before_bucketing_witness :
    ("a" ∈ selectedAreas .count .top (trendBase 1 none [trendRec "a"])) ∧
    (metricOf .count (trendBase 1 none cache11) "k" ≤
      metricOf .count (trendBase 1 none cache11) "a") := by
  constructor
  · exact (trend_ranking_fixed_before_bucketing 1 none .top .count [trendRec "a"]).1
      ((0 : Int), "a") 1
      (by simp [update_trend_chart, trendBase, dateFilter, bucketAgg, periodKeys, periodOf,
        bucketRule, selectedAreas, rankedAreas, areasOf, metricOf, trendRec,
        List.insertionSort, List.orderedInsert, List.dedup_cons_of_mem,
        List.dedup_cons_of_not_mem, Nat.cast_le, Nat.cast_inj])
  · exact ((trend_ranking_fixed_before_bucketing 1 none .top .count cache11).2.1 "a" "k"
      (by simp [selectedAreas, rankedAreas, areasOf, metricOf, trendBase, dateFilter, cache11,
        trendRec, List.insertionSort, List.orderedInsert, List.dedup_cons_of_mem,
        List.dedup_cons_of_not_mem, Nat.cast_le, Nat.cast_inj])
      (by simp [areasOf, trendBase, dateFilter, cache11, trendRec, List.dedup_cons_of_mem,
        List.dedup_cons_of_not_mem])
      (by simp [selectedAreas, rankedAreas, areasOf, metricOf, trendBase, dateFilter, cache11,
        trendRec, List.insertionSort, List.orderedInsert, List.dedup_cons_of_mem,
        List.dedup_cons_of_not_mem, Nat.cast_le, Nat.cast_inj])).1 rfl

/-! ## Ingestion lemmas and claims -/

/-- The per-date KPI totals sum to the size of the `crimes` table: every stored
row is counted exactly once, and only stored rows are counted. -/
theorem kpi_sum (crimes : List CrimeRow) : kpiTotalSum crimes = crimes.length := by
  have h1 : kpiTotalSum crimes =
      (((crimes.map (·.date)).dedup).map
        (fun d => (crimes.filter fun c => decide (c.date = d)).length)).sum := by
    show ((kpi_by_date crimes).map (·.2)).sum = _
    rw [show kpi_by_date crimes = ((crimes.map (·.date)).dedup).map
        (fun d => (d, (crimes.filter fun c => decide (c.date = d)).length)) from rfl,
      List.map_map]
    rfl
  rw [h1]
  have h2 : ∀ d : Int, (crimes.filter fun c => decide (c.date = d)).length =
      (crimes.map (·.date)).count d := by
    intro d
    calc (crimes.filter fun c => decide (c.date = d)).length
        = crimes.countP (fun c => decide (c.date = d)) :=
          (List.countP_eq_length_filter _ _).symm
      _ = crimes.countP (fun c => c.date == d) := by
          apply List.countP_congr
          intro c hc
          rw [Bool.eq_iff_iff]
          simp [beq_iff_eq]
      _ = (crimes.map (·.date)).countP (fun x => x == d) :=
          (List.countP_map (fun x => x == d) (fun c : CrimeRow => c.date) crimes).symm
      _ = (crimes.map (·.date)).count d := rfl
  rw [List.map_congr_left fun d _ => h2 d]
  rw [← List.sum_toFinset _ (List.nodup_dedup _)]
  rw [show ((crimes.map (·.date)).dedup).toFinset = (crimes.map (·.date)).toFinset from
    List.toFinset_eq_iff_perm_dedup.mpr (by rw [List.dedup_idem])]
  rw [List.sum_toFinset_count_eq_length]
  exact List.length_map _ _

/-- C8 (amended): a row whose latitude or longitude is absent after
normalization (sentinels `'REDACTED'` and the empty string become SQL `NULL`,
never zero) is dropped entirely at ingestion — its `BETWEEN` conjunct is not
TRUE, so the row never enters the `crimes` table, the KPI aggregation (which
reads only that table and counts each stored row exactly once) never counts
it, and the app-side cache likewise filters out coordinate-less rows before
storing.  Such records are therefore excluded from spatial and map operations
but NOT retained for KPI counts. -/
theorem missing_coordinates_rows_dropped :
    (∀ (f : IngestFlags) (rows : List RawRow) (c : CrimeRow), c ∈ ingestCrimes f rows →
      c.latitude.isSome ∧ c.longitude.isSome) ∧
    (∀ (f : IngestFlags) (rows : List RawRow),
      kpiTotalSum (ingestCrimes f rows) = (ingestCrimes f rows).length) ∧
    (∀ (rows : List CsvRow) (r : CsvRow), r ∈ load_from_csv rows →
      r.latitude.isSome ∧ r.longitude.isSome) := by
  refine ⟨?_, fun f rows => kpi_sum _, ?_⟩
  · intro f rows c hc
    obtain ⟨r, hr, hcr⟩ := List.mem_map.mp hc
    have hp := (List.mem_filter.mp hr).2
    rw [← hcr]
    show (normCoord r.latitude).isSome ∧ (normCoord r.longitude).isSome
    cases hdt : r.dt with
    | none =>
      rw [show rowPasses f r = (match r.dt, normCoord r.latitude, normCoord r.longitude with
          | some d, some la, some lo =>
            decide (yearOf d.1 ≥ 2008) &&
            decide ((47 : ℚ) ≤ la) && decide (la ≤ 48.1) &&
            decide ((-123.5 : ℚ) ≤ lo) && decide (lo ≤ -121) &&
            decide (r.sector ≠ "99") && decide (r.precinct ≠ "OOJ") &&
            (!f.hasNibrs || decide (r.nibrsCode ≠ "999")) &&
            (!f.hasOffenseSub || decide (r.offenseSub ≠ "999")) &&
            (!f.hasMcpp || decide (r.mcpp ≠ "UNKNOWN"))
          | _, _, _ => false) from rfl, hdt] at hp
      cases hla : normCoord r.latitude <;> cases hlo : normCoord r.longitude <;>
        rw [hla, hlo] at hp <;> exact absurd hp (by simp)
    | some d =>
      rw [show rowPasses f r = (match r.dt, normCoord r.latitude, normCoord r.longitude with
          | some d, some la, some lo =>
            decide (yearOf d.1 ≥ 2008) &&
            decide ((47 : ℚ) ≤ la) && decide (la ≤ 48.1) &&
            decide ((-123.5 : ℚ) ≤ lo) && decide (lo ≤ -121) &&
            decide (r.sector ≠ "99") && decide (r.precinct ≠ "OOJ") &&
            (!f.hasNibrs || decide (r.nibrsCode ≠ "999")) &&
            (!f.hasOffenseSub || decide (r.offenseSub ≠ "999")) &&
            (!f.hasMcpp || decide (r.mcpp ≠ "UNKNOWN"))
          | _, _, _ => false) from rfl, hdt] at hp
      cases hla : normCoord r.latitude with
      | none =>
        rw [hla] at hp
        cases hlo : normCoord r.longitude <;> rw [hlo] at hp <;> exact absurd hp (by simp)
      | some la =>
        cases hlo : normCoord r.longitude with
        | none =>
          rw [hla, hlo] at hp
          exact absurd hp (by simp)
        | some lo =>
          exact ⟨rfl, rfl⟩
  · intro rows r hr
    have hb := (List.mem_filter.mp hr).2
    exact ⟨(Bool.and_eq_true _ _ |>.mp hb).1, (Bool.and_eq_true _ _ |>.mp hb).2⟩

/-- A fully valid raw row (parseable date in 2024, in-bounds coordinates). -/
def rawGood : RawRow :=
  { dt := some (19724, 12), offense := "THEFT", area := "X", precinct := "N", sector := "Q",
    mcpp := "X", nibrsCode := "23D", offenseSub := "THEFT-ALL",
    latitude := .num 48, longitude := .num (-122) }

/-- The same row with a redacted latitude cell. -/
def rawRedacted : RawRow :=
  { dt := some (19724, 12), offense := "THEFT", area := "X", precinct := "N", sector := "Q",
    mcpp := "X", nibrsCode := "23D", offenseSub := "THEFT-ALL",
    latitude := .redacted, longitude := .num (-122) }

/-- Counterexample to C8 as stated: a row whose latitude is the sentinel
`'REDACTED'` (treated as missing, not zero) is NOT retained in the canonical
store — `ingestCrimes` drops it entirely, so the KPI aggregation counts
nothing — and the app-side loader drops coordinate-less rows as well. -/
theorem redacted_latitude_row_not_retained :
    normCoord RawCoord.redacted = none ∧
    ingestCrimes ⟨true, true, true⟩ [rawRedacted] = [] ∧
    kpiTotalSum (ingestCrimes ⟨true, true, true⟩ [rawRedacted]) = 0 ∧
    load_from_csv [({ latitude := none, longitude := some (-122) } : CsvRow)] = [] :=
  ⟨rfl, rfl, rfl, rfl⟩

/-- Witness for C8: a valid row is stored with both coordinates present,
every KPI total sums to the store size, and a coordinated CSV row survives
the loader's filter. -/
theorem missing_coordinates_rows_dropped_witness :
    ((normalizeRow rawGood).latitude.isSome ∧ (normalizeRow rawGood).longitude.isSome) ∧
    kpiTotalSum (ingestCrimes ⟨true, true, true⟩ [rawGood]) =
      (ingestCrimes ⟨true, true, true⟩ [rawGood]).length ∧
    (({ latitude := some 48, longitude := some (-122) } : CsvRow).latitude.isSome ∧
      ({ latitude := some 48, longitude := some (-122) } : CsvRow).longitude.isSome) := by
  have hpass : rowPasses ⟨true, true, true⟩ rawGood = true := by
    have h0 : rowPasses ⟨true, true, true⟩ rawGood =
        (decide (yearOf 19724 ≥ 2008) &&
         decide ((47 : ℚ) ≤ 48) && decide ((48 : ℚ) ≤ 48.1) &&
         decide ((-123.5 : ℚ) ≤ -122) && decide ((-122 : ℚ) ≤ -121) &&
         decide (("Q" : String) ≠ "99") && decide (("N" : String) ≠ "OOJ") &&
         (!true || decide (("23D" : String) ≠ "999")) &&
         (!true || decide (("THEFT-ALL" : String) ≠ "999")) &&
         (!true || decide (("X" : String) ≠ "UNKNOWN"))) := rfl
    rw [h0]
    simp only [Bool.and_eq_true, Bool.or_eq_true, decide_eq_true_eq, Bool.not_true,
      Bool.false_or]
    refine ⟨⟨⟨⟨⟨⟨⟨⟨⟨?_, ?_⟩, ?_⟩, ?_⟩, ?_⟩, ?_⟩, ?_⟩, ?_⟩, ?_⟩, ?_⟩
    · decide
    · norm_num
    · norm_num
    · norm_num
    · norm_num
    · decide
    · decide
    · decide
    · decide
    · decide
  have hmem : normalizeRow rawGood ∈ ingestCrimes ⟨true, true, true⟩ [rawGood] := by
    have h1 : ingestCrimes ⟨true, true, true⟩ [rawGood] =
        (List.filter (rowPasses ⟨true, true, true⟩) [rawGood]).map normalizeRow := rfl
    rw [h1, List.filter_cons, if_pos hpass]
    exact List.mem_singleton.mpr rfl
  exact ⟨missing_coordinates_rows_dropped.1 ⟨true, true, true⟩ [rawGood] _ hmem,
    missing_coordinates_rows_dropped.2.1 ⟨true, true, true⟩ [rawGood],
    missing_coordinates_rows_dropped.2.2 [{ latitude := some 48, longitude := some (-122) }] _
      (by simp [load_from_csv])⟩
